import Mathlib

/-!
Shallow embedding of the Rust RCON Heartbeat Monitor (index.js, dual-transport
variant). The embedded parts are: transport selection from the RCON_TRANSPORT
configuration string, the WebRCON WebSocket message handler of
checkServerWebRCON, and the retry / failure-tracking cycle driver
checkServerWithRetry together with the process-level loop.

Network and timer effects are modelled by explicit inputs: each attempt of a
cycle is given the outcome of its transport exchange and of the axios POST to
the uptime endpoint, and the Math.random() samples drawn for jitter are given
as a stream of rationals in the unit interval. The WebRCON handler is a state
machine folded over the list of socket events it receives.
-/

namespace RconMonitor

/-- Transport as selected at the top of checkServerWithRetry: the
RCON_TRANSPORT string is lowercased and compared against the literals
classic and web; anything else is the unknown case that the code turns
into a thrown Error inside the attempt. -/
inductive Transport where
  | classic
  | web
  | unknown (raw : String)
deriving DecidableEq, Repr

/-- Character-wise lowercasing, the model of the JS toLowerCase call on
the configured ASCII transport string. -/
def lowerAscii (s : String) : String :=
  String.mk (s.data.map Char.toLower)

/-- Lowercase the configured string and select the transport, following
lines 137 and 141-147 of index.js. -/
def selectTransport (raw : String) : Transport :=
  let t := lowerAscii raw
  if t = "classic" then Transport.classic
  else if t = "web" then Transport.web
  else Transport.unknown raw

/-- The transport is one of the two recognized values. -/
def Transport.isKnown : Transport → Bool
  | Transport.unknown _ => false
  | _ => true

/-- Errors thrown inside the try block of one attempt of
checkServerWithRetry and caught at its catch: the unknown-transport Error,
a failure of the transport exchange (checkServerClassicRCON or
checkServerWebRCON rejecting), or a failure of the axios POST to the
uptime endpoint. The detail string stands for the JS error message. -/
inductive CycleError where
  | unknownTransport (raw : String)
  | rconFailed (detail : String)
  | heartbeatFailed (detail : String)
deriving DecidableEq, Repr

/-- Environment of one attempt: the outcome the transport exchange would
have if run, and the outcome the axios POST would have if run. Whether
each actually runs is decided by the control flow of the attempt. -/
structure AttemptEnv where
  rcon : Except String Unit
  post : Except String Unit

/-- Result of the try block of one attempt (lines 140-154): ok when the
transport exchange and the heartbeat POST both succeed (the attempt
returns true), otherwise the first error thrown. -/
def attemptResult (t : Transport) (env : AttemptEnv) : Except CycleError Unit :=
  match t with
  | Transport.unknown raw => Except.error (CycleError.unknownTransport raw)
  | _ =>
      match env.rcon with
      | Except.error d => Except.error (CycleError.rconFailed d)
      | Except.ok _ =>
          match env.post with
          | Except.error d => Except.error (CycleError.heartbeatFailed d)
          | Except.ok _ => Except.ok ()

/-- Value of consecutiveFailures after the try block of one attempt ran,
given its value before: line 149 sets it to 0 as soon as the transport
exchange succeeded, before the POST is attempted; on the unknown-transport
throw or a transport failure it is untouched. -/
def attemptCf (t : Transport) (env : AttemptEnv) (cf : Nat) : Nat :=
  match t with
  | Transport.unknown _ => cf
  | _ => if env.rcon.isOk then 0 else cf

/-- Number of axios POST calls the attempt performs: exactly one when the
transport exchange succeeded (line 151 is reached), none otherwise. -/
def attemptPosts (t : Transport) (env : AttemptEnv) : Nat :=
  match t with
  | Transport.unknown _ => 0
  | _ => if env.rcon.isOk then 1 else 0

/-- The attempt as a whole succeeds: its try block reaches return true. -/
def attemptSucceeds (t : Transport) (env : AttemptEnv) : Bool :=
  (attemptResult t env).isOk

/-- Observable outcome of one invocation of checkServerWithRetry:
the final value of consecutiveFailures, the boolean return value, how many
loop iterations ran, how many axios POST calls were made, the jitter
delays waited (in order), and the attempt errors caught (in order). -/
structure RunOut where
  cf : Nat
  success : Bool
  attemptsRun : Nat
  postCalls : Nat
  delays : List ℚ
  errors : List CycleError
deriving Repr

/-- The configuration fields of index.js that the cycle driver reads. -/
structure Config where
  transport : String
  jitterMs : ℚ
  threshold : Nat

/-- The for loop of checkServerWithRetry (lines 139-169). The list envs
has one entry per configured attempt, so its length is
ATTEMPTS_PER_CYCLE; rnd is the stream of Math.random() samples, one
consumed per jitter wait. The first attempt that returns true ends the
loop; after a failed non-final attempt a jitter delay of sample times
JITTER_MS is waited. -/
def loopAux (t : Transport) (jmax : ℚ) :
    List AttemptEnv → List ℚ → Nat → RunOut
  | [], _, cf =>
      { cf := cf, success := false, attemptsRun := 0, postCalls := 0,
        delays := [], errors := [] }
  | env :: rest, rnd, cf =>
      match attemptResult t env with
      | Except.ok _ =>
          { cf := attemptCf t env cf, success := true, attemptsRun := 1,
            postCalls := attemptPosts t env, delays := [], errors := [] }
      | Except.error e =>
          match rest with
          | [] =>
              { cf := attemptCf t env cf, success := false, attemptsRun := 1,
                postCalls := attemptPosts t env, delays := [], errors := [e] }
          | _ :: _ =>
              let out := loopAux t jmax rest rnd.tail (attemptCf t env cf)
              { cf := out.cf, success := out.success,
                attemptsRun := out.attemptsRun + 1,
                postCalls := attemptPosts t env + out.postCalls,
                delays := rnd.headD 0 * jmax :: out.delays,
                errors := e :: out.errors }

/-- checkServerWithRetry (lines 136-180): run the attempt loop; when it
exhausts without success, increment consecutiveFailures (line 171) and
return false, otherwise return true. -/
def checkServerWithRetry (cfg : Config) (envs : List AttemptEnv)
    (rnd : List ℚ) (cf0 : Nat) : RunOut :=
  let out := loopAux (selectTransport cfg.transport) cfg.jitterMs envs rnd cf0
  if out.success then out else { out with cf := out.cf + 1 }

/-- Errors with which the checkServerWebRCON promise can be rejected
(lines 67-131): the overall timeout, a socket error event, a JSON parse
failure of a received frame, and the close-before-auth rejection. -/
inductive WsError where
  | timeoutExpired
  | socketFailure (detail : String)
  | parseFailure (detail : String)
  | closedBeforeAuth
deriving DecidableEq, Repr

/-- One event delivered to the message or close listeners of the
WebSocket in checkServerWebRCON: a frame that parses to JSON with an
Identifier and an optional Message field, a frame whose JSON.parse
throws, or the close event. -/
inductive WsFrame where
  | msg (ident : Int) (message : Option String)
  | malformed (detail : String)
  | close
deriving DecidableEq, Repr

/-- Frame discriminators used to state hypotheses about event lists. -/
def isAuthSignal : WsFrame → Bool
  | WsFrame.msg ident _ => ident == -1
  | _ => false

/-- True exactly on frames whose JSON parsing throws. -/
def isMalformed : WsFrame → Bool
  | WsFrame.malformed _ => true
  | _ => false

/-- True exactly on the close event. -/
def isCloseFrame : WsFrame → Bool
  | WsFrame.close => true
  | _ => false

/-- True exactly on message frames carrying the given Identifier. -/
def frameMatches (ident : Int) : WsFrame → Bool
  | WsFrame.msg i _ => i == ident
  | _ => false

/-- State of the checkServerWebRCON handlers: the authSuccess flag, the
commandId chosen when the command is sent, whether the promise has been
settled (resolved with true or rejected with an error), and the response
preview that the resolving branch logs. Once settled is set, cleanup has
removed all listeners, so later events change nothing. -/
structure WsState where
  authSuccess : Bool
  commandId : Option Int
  settled : Option (Except WsError Bool)
  logPreview : Option String
deriving Repr

/-- Handler state before any event arrives. -/
def wsInit : WsState :=
  { authSuccess := false, commandId := none, settled := none,
    logPreview := none }

/-- Response preview computed at line 111: the Message field truncated to
100 characters, or the literal empty marker when the field is absent or
the empty string (JS falsiness of msg.Message). -/
def responsePreview : Option String → String
  | none => "empty"
  | some m => if m = "" then "empty" else String.mk (m.data.take 100)

/-- One step of the checkServerWebRCON handlers (lines 92-127). The
parameter now is the Date.now() value used as the command Identifier. A
message with Identifier -1 before auth marks auth success and sends the
command; after auth, the first message whose Identifier equals the
command id resolves the promise with true and logs the preview; a parse
failure rejects; a close before auth rejects with the
closed-before-auth error; every other event is ignored. -/
def wsStep (now : Int) (s : WsState) (e : WsFrame) : WsState :=
  if s.settled.isSome then s
  else
    match e with
    | WsFrame.malformed d =>
        { s with settled := some (Except.error (WsError.parseFailure d)) }
    | WsFrame.close =>
        if s.authSuccess = true then s
        else { s with settled := some (Except.error WsError.closedBeforeAuth) }
    | WsFrame.msg ident message =>
        if s.authSuccess = false ∧ ident = -1 then
          { s with authSuccess := true, commandId := some now }
        else if s.authSuccess = true ∧ s.commandId = some ident then
          { s with settled := some (Except.ok true),
                   logPreview := some (responsePreview message) }
        else s

/-- Fold the handler over the list of socket events, in arrival order. -/
def wsRun (now : Int) (evs : List WsFrame) : WsState :=
  evs.foldl (wsStep now) wsInit

/-- Health classification notions of the spec. -/
inductive Classification where
  | Healthy
  | Warn
  | Down
deriving DecidableEq, Repr

/-- The branch taken at lines 173-177, reached only after a failed cycle:
Down when consecutiveFailures has reached the threshold, Warn below it. -/
def classifyAfterFailure (cf threshold : Nat) : Classification :=
  if threshold ≤ cf then Classification.Down else Classification.Warn

/-- Input of one whole cycle of the process-level loop. -/
structure CycleInput where
  envs : List AttemptEnv
  rnd : List ℚ

/-- The process-level loop (lines 182-197) restricted to a finite list of
cycles: each cycle runs checkServerWithRetry on the shared
consecutiveFailures counter; the loop never stops early, whatever the
cycle outcomes are. Returns the final counter and every cycle outcome. -/
def runHistory (cfg : Config) : List CycleInput → Nat → Nat × List RunOut
  | [], cf0 => (cf0, [])
  | c :: rest, cf0 =>
      let out := checkServerWithRetry cfg c.envs c.rnd cf0
      let next := runHistory cfg rest out.cf
      (next.1, out :: next.2)

/-- The error recorded by a failed attempt, none for a successful one. -/
def attemptErrorOf (t : Transport) (env : AttemptEnv) : Option CycleError :=
  match attemptResult t env with
  | Except.ok _ => none
  | Except.error e => some e

section AttemptLemmas

theorem attemptCf_of_ok {t : Transport} {env : AttemptEnv} {u : Unit}
    (h : attemptResult t env = Except.ok u) (cf : Nat) :
    attemptCf t env cf = 0 := by
  rcases env with ⟨r, p⟩
  cases t <;> cases r <;> cases p <;>
    simp_all [attemptResult, attemptCf, Except.isOk, Except.toBool]

theorem attemptResult_of_rcon_fail {t : Transport} {env : AttemptEnv}
    (h : env.rcon.isOk = false) :
    (attemptResult t env).isOk = false ∧ ∀ cf, attemptCf t env cf = cf := by
  rcases env with ⟨r, p⟩
  cases t <;> cases r <;> cases p <;>
    simp_all [attemptResult, attemptCf, Except.isOk, Except.toBool]

theorem attemptResult_unknown (raw : String) (env : AttemptEnv) :
    attemptResult (Transport.unknown raw) env =
      Except.error (CycleError.unknownTransport raw) ∧
    (∀ cf, attemptCf (Transport.unknown raw) env cf = cf) ∧
    attemptPosts (Transport.unknown raw) env = 0 := by
  exact ⟨rfl, fun _ => rfl, rfl⟩

theorem attemptResult_heartbeat_fail {t : Transport} {env : AttemptEnv}
    (hT : t.isKnown = true) (hr : env.rcon.isOk = true)
    (hp : env.post.isOk = false) :
    (∃ d, attemptResult t env = Except.error (CycleError.heartbeatFailed d)) ∧
    (∀ cf, attemptCf t env cf = 0) ∧ attemptPosts t env = 1 := by
  rcases env with ⟨r, p⟩
  cases t <;> cases r <;> cases p <;>
    simp_all [attemptResult, attemptCf, attemptPosts, Except.isOk,
      Except.toBool, Transport.isKnown]

theorem attemptSucceeds_iff {t : Transport} {env : AttemptEnv} :
    attemptSucceeds t env = true ↔ ∃ u, attemptResult t env = Except.ok u := by
  unfold attemptSucceeds
  cases h : attemptResult t env <;> simp [Except.isOk, Except.toBool]

end AttemptLemmas

section LoopLemmas

theorem loopAux_nil (t : Transport) (j : ℚ) (rnd : List ℚ) (cf : Nat) :
    loopAux t j [] rnd cf =
      { cf := cf, success := false, attemptsRun := 0, postCalls := 0,
        delays := [], errors := [] } := rfl

theorem loopAux_cons_ok {t : Transport} {env : AttemptEnv} {u : Unit}
    (h : attemptResult t env = Except.ok u) (j : ℚ) (rest : List AttemptEnv)
    (rnd : List ℚ) (cf : Nat) :
    loopAux t j (env :: rest) rnd cf =
      { cf := attemptCf t env cf, success := true, attemptsRun := 1,
        postCalls := attemptPosts t env, delays := [], errors := [] } := by
  unfold loopAux; rw [h]

theorem loopAux_cons_error_nil {t : Transport} {env : AttemptEnv}
    {e : CycleError} (h : attemptResult t env = Except.error e) (j : ℚ)
    (rnd : List ℚ) (cf : Nat) :
    loopAux t j [env] rnd cf =
      { cf := attemptCf t env cf, success := false, attemptsRun := 1,
        postCalls := attemptPosts t env, delays := [], errors := [e] } := by
  unfold loopAux; rw [h]

theorem loopAux_cons_error_cons {t : Transport} {env : AttemptEnv}
    {e : CycleError} (h : attemptResult t env = Except.error e) (j : ℚ)
    (e2 : AttemptEnv) (r2 : List AttemptEnv) (rnd : List ℚ) (cf : Nat) :
    loopAux t j (env :: e2 :: r2) rnd cf =
      (let out := loopAux t j (e2 :: r2) rnd.tail (attemptCf t env cf)
       { cf := out.cf, success := out.success,
         attemptsRun := out.attemptsRun + 1,
         postCalls := attemptPosts t env + out.postCalls,
         delays := rnd.headD 0 * j :: out.delays,
         errors := e :: out.errors }) := by
  conv_lhs => unfold loopAux
  rw [h]

theorem loop_success_any (t : Transport) (j : ℚ) (envs : List AttemptEnv) :
    ∀ rnd cf, (loopAux t j envs rnd cf).success = envs.any (attemptSucceeds t) := by
  induction envs with
  | nil => intro rnd cf; rfl
  | cons env rest ih =>
    intro rnd cf
    cases h : attemptResult t env with
    | ok u =>
      rw [loopAux_cons_ok h]
      simp [List.any_cons, attemptSucceeds, h, Except.isOk, Except.toBool]
    | error e =>
      cases rest with
      | nil =>
        rw [loopAux_cons_error_nil h]
        simp [List.any_cons, attemptSucceeds, h, Except.isOk, Except.toBool]
      | cons e2 r2 =>
        rw [loopAux_cons_error_cons h]
        simp [List.any_cons, attemptSucceeds, h, Except.isOk, Except.toBool, ih]

theorem loop_cf_of_success (t : Transport) (j : ℚ) (envs : List AttemptEnv) :
    ∀ rnd cf, (loopAux t j envs rnd cf).success = true →
      (loopAux t j envs rnd cf).cf = 0 := by
  induction envs with
  | nil => intro rnd cf h; rw [loopAux_nil] at h; exact absurd h (by simp)
  | cons env rest ih =>
    intro rnd cf h
    cases hres : attemptResult t env with
    | ok u => rw [loopAux_cons_ok hres]; exact attemptCf_of_ok hres cf
    | error e =>
      cases rest with
      | nil => rw [loopAux_cons_error_nil hres] at h; exact absurd h (by simp)
      | cons e2 r2 =>
        rw [loopAux_cons_error_cons hres] at h ⊢
        exact ih rnd.tail _ h

theorem loop_all_rcon_fail (t : Transport) (j : ℚ) (envs : List AttemptEnv) :
    ∀ rnd cf, (∀ env ∈ envs, env.rcon.isOk = false) →
      (loopAux t j envs rnd cf).success = false ∧
      (loopAux t j envs rnd cf).cf = cf := by
  induction envs with
  | nil => intro rnd cf _; exact ⟨rfl, rfl⟩
  | cons env rest ih =>
    intro rnd cf hall
    have hhead := hall env (List.mem_cons_self env rest)
    have hfail := attemptResult_of_rcon_fail (t := t) hhead
    cases hres : attemptResult t env with
    | ok u => rw [hres] at hfail; simp [Except.isOk, Except.toBool] at hfail
    | error e =>
      have hcf : attemptCf t env cf = cf := hfail.2 cf
      cases rest with
      | nil => rw [loopAux_cons_error_nil hres]; exact ⟨rfl, hcf⟩
      | cons e2 r2 =>
        have htail : ∀ env2 ∈ e2 :: r2, env2.rcon.isOk = false := by
          intro env2 hmem; exact hall env2 (List.mem_cons_of_mem env hmem)
        have hrec := ih rnd.tail (attemptCf t env cf) htail
        rw [loopAux_cons_error_cons hres]
        exact ⟨hrec.1, hrec.2.trans hcf⟩

theorem loop_unknown_fields (raw : String) (j : ℚ) (envs : List AttemptEnv) :
    ∀ rnd cf,
      (loopAux (Transport.unknown raw) j envs rnd cf).success = false ∧
      (loopAux (Transport.unknown raw) j envs rnd cf).cf = cf ∧
      (loopAux (Transport.unknown raw) j envs rnd cf).attemptsRun = envs.length ∧
      (loopAux (Transport.unknown raw) j envs rnd cf).postCalls = 0 ∧
      (loopAux (Transport.unknown raw) j envs rnd cf).errors =
        List.replicate envs.length (CycleError.unknownTransport raw) := by
  induction envs with
  | nil => intro rnd cf; exact ⟨rfl, rfl, rfl, rfl, rfl⟩
  | cons env rest ih =>
    intro rnd cf
    have hres : attemptResult (Transport.unknown raw) env =
        Except.error (CycleError.unknownTransport raw) := rfl
    cases rest with
    | nil =>
      rw [loopAux_cons_error_nil hres]
      exact ⟨rfl, rfl, rfl, rfl, rfl⟩
    | cons e2 r2 =>
      have hrec := ih rnd.tail cf
      rw [loopAux_cons_error_cons hres]
      have hcf0 : attemptCf (Transport.unknown raw) env cf = cf := rfl
      refine ⟨hrec.1, hrec.2.1, ?_, ?_, ?_⟩
      · show (loopAux (Transport.unknown raw) j (e2 :: r2) rnd.tail
            (attemptCf (Transport.unknown raw) env cf)).attemptsRun + 1 =
            (env :: e2 :: r2).length
        rw [hcf0, hrec.2.2.1]
        simp
      · show attemptPosts (Transport.unknown raw) env +
            (loopAux (Transport.unknown raw) j (e2 :: r2) rnd.tail
              (attemptCf (Transport.unknown raw) env cf)).postCalls = 0
        rw [hcf0, hrec.2.2.2.1]
        rfl
      · show CycleError.unknownTransport raw ::
            (loopAux (Transport.unknown raw) j (e2 :: r2) rnd.tail
              (attemptCf (Transport.unknown raw) env cf)).errors =
            List.replicate (env :: e2 :: r2).length
              (CycleError.unknownTransport raw)
        rw [hcf0, hrec.2.2.2.2]
        simp [List.replicate]

theorem loop_attemptsRun_first_success (t : Transport) (j : ℚ) :
    ∀ (envs : List AttemptEnv) (rnd : List ℚ) (cf i : Nat)
      (hi : i < envs.length),
      attemptSucceeds t (envs.get ⟨i, hi⟩) = true →
      (∀ k (hk : k < i), attemptSucceeds t (envs.get ⟨k, by omega⟩) = false) →
      (loopAux t j envs rnd cf).attemptsRun = i + 1 := by
  intro envs
  induction envs with
  | nil => intro rnd cf i hi; exact absurd hi (by simp)
  | cons env rest ih =>
    intro rnd cf i hi hsucc hbefore
    cases i with
    | zero =>
      have h0 : attemptSucceeds t env = true := hsucc
      obtain ⟨u, hu⟩ := attemptSucceeds_iff.mp h0
      rw [loopAux_cons_ok hu]
    | succ i0 =>
      have hfail0 : attemptSucceeds t env = false := hbefore 0 (Nat.succ_pos i0)
      cases hres : attemptResult t env with
      | ok u =>
        rw [attemptSucceeds, hres] at hfail0
        simp [Except.isOk, Except.toBool] at hfail0
      | error e =>
        cases rest with
        | nil => simp at hi
        | cons e2 r2 =>
          rw [loopAux_cons_error_cons hres]
          have hi0 : i0 < (e2 :: r2).length := by simp at hi ⊢; omega
          have hrec := ih rnd.tail (attemptCf t env cf) i0 hi0
            (by exact hsucc)
            (by intro k hk; exact hbefore (k + 1) (by omega))
          show (loopAux t j (e2 :: r2) rnd.tail
            (attemptCf t env cf)).attemptsRun + 1 = i0 + 1 + 1
          rw [hrec]

theorem loop_delays_mem (t : Transport) (j : ℚ) (hj : 0 < j) :
    ∀ (envs : List AttemptEnv) (rnd : List ℚ) (cf : Nat),
      (∀ r ∈ rnd, 0 ≤ r ∧ r < 1) →
      ∀ d ∈ (loopAux t j envs rnd cf).delays, 0 ≤ d ∧ d < j := by
  intro envs
  induction envs with
  | nil => intro rnd cf _ d hd; rw [loopAux_nil] at hd; exact absurd hd (by simp)
  | cons env rest ih =>
    intro rnd cf hrnd d hd
    cases hres : attemptResult t env with
    | ok u => rw [loopAux_cons_ok hres] at hd; exact absurd hd (by simp)
    | error e =>
      cases rest with
      | nil =>
        rw [loopAux_cons_error_nil hres] at hd
        exact absurd hd (by simp)
      | cons e2 r2 =>
        rw [loopAux_cons_error_cons hres] at hd
        have hd2 : d = rnd.headD 0 * j ∨
            d ∈ (loopAux t j (e2 :: r2) rnd.tail (attemptCf t env cf)).delays := by
          simpa using hd
        rcases hd2 with hd2 | hd2
        · subst hd2
          cases rnd with
          | nil => simpa using hj
          | cons r rs =>
            have hr := hrnd r (List.mem_cons_self r rs)
            constructor
            · exact mul_nonneg hr.1 (le_of_lt hj)
            · calc r * j < 1 * j := by
                    exact mul_lt_mul_of_pos_right hr.2 hj
                _ = j := one_mul j
        · exact ih rnd.tail (attemptCf t env cf)
            (fun r hr => hrnd r (List.mem_of_mem_tail hr)) d hd2

theorem loop_delays_len (t : Transport) (j : ℚ) :
    ∀ (envs : List AttemptEnv) (rnd : List ℚ) (cf : Nat), envs ≠ [] →
      (loopAux t j envs rnd cf).delays.length + 1 =
        (loopAux t j envs rnd cf).attemptsRun := by
  intro envs
  induction envs with
  | nil => intro rnd cf h; exact absurd rfl h
  | cons env rest ih =>
    intro rnd cf _
    cases hres : attemptResult t env with
    | ok u => rw [loopAux_cons_ok hres]; rfl
    | error e =>
      cases rest with
      | nil => rw [loopAux_cons_error_nil hres]; rfl
      | cons e2 r2 =>
        rw [loopAux_cons_error_cons hres]
        have hrec := ih rnd.tail (attemptCf t env cf) (by simp)
        show (rnd.headD 0 * j ::
            (loopAux t j (e2 :: r2) rnd.tail (attemptCf t env cf)).delays).length
            + 1 =
          (loopAux t j (e2 :: r2) rnd.tail (attemptCf t env cf)).attemptsRun + 1
        rw [List.length_cons, hrec]

theorem loop_errors_all_fail (t : Transport) (j : ℚ) :
    ∀ (envs : List AttemptEnv) (rnd : List ℚ) (cf : Nat),
      (∀ env ∈ envs, attemptSucceeds t env = false) →
      (loopAux t j envs rnd cf).errors = envs.filterMap (attemptErrorOf t) ∧
      (loopAux t j envs rnd cf).errors.length = envs.length := by
  intro envs
  induction envs with
  | nil => intro rnd cf _; exact ⟨rfl, rfl⟩
  | cons env rest ih =>
    intro rnd cf hall
    have hfail0 : attemptSucceeds t env = false :=
      hall env (List.mem_cons_self env rest)
    cases hres : attemptResult t env with
    | ok u =>
      rw [attemptSucceeds, hres] at hfail0
      simp [Except.isOk, Except.toBool] at hfail0
    | error e =>
      have herr : attemptErrorOf t env = some e := by
        unfold attemptErrorOf; rw [hres]
      cases rest with
      | nil =>
        rw [loopAux_cons_error_nil hres]
        simp [List.filterMap_cons, herr]
      | cons e2 r2 =>
        rw [loopAux_cons_error_cons hres]
        have hrec := ih rnd.tail (attemptCf t env cf)
          (fun env2 hmem => hall env2 (List.mem_cons_of_mem env hmem))
        constructor
        · show e :: (loopAux t j (e2 :: r2) rnd.tail
              (attemptCf t env cf)).errors =
            (env :: e2 :: r2).filterMap (attemptErrorOf t)
          rw [List.filterMap_cons, herr, hrec.1]
        · show (e :: (loopAux t j (e2 :: r2) rnd.tail
              (attemptCf t env cf)).errors).length = (env :: e2 :: r2).length
          rw [List.length_cons, hrec.2]
          rfl

theorem loop_heartbeat_fail (t : Transport) (j : ℚ) (hT : t.isKnown = true) :
    ∀ (envs : List AttemptEnv) (rnd : List ℚ) (cf : Nat), envs ≠ [] →
      (∀ env ∈ envs, env.rcon.isOk = true ∧ env.post.isOk = false) →
      (loopAux t j envs rnd cf).success = false ∧
      (loopAux t j envs rnd cf).cf = 0 ∧
      (loopAux t j envs rnd cf).postCalls = envs.length ∧
      (∀ e ∈ (loopAux t j envs rnd cf).errors,
        ∃ d, e = CycleError.heartbeatFailed d) := by
  intro envs
  induction envs with
  | nil => intro rnd cf h; exact absurd rfl h
  | cons env rest ih =>
    intro rnd cf _ hall
    have hhead := hall env (List.mem_cons_self env rest)
    obtain ⟨⟨d, hd⟩, hcf, hposts⟩ :=
      attemptResult_heartbeat_fail (t := t) hT hhead.1 hhead.2
    cases rest with
    | nil =>
      rw [loopAux_cons_error_nil hd]
      refine ⟨rfl, hcf cf, by simp [hposts], ?_⟩
      intro e he
      simp at he
      exact ⟨d, he⟩
    | cons e2 r2 =>
      rw [loopAux_cons_error_cons hd]
      have hrec := ih rnd.tail (attemptCf t env cf) (by simp)
        (fun env2 hmem => hall env2 (List.mem_cons_of_mem env hmem))
      refine ⟨hrec.1, hrec.2.1, ?_, ?_⟩
      · show attemptPosts t env + (loopAux t j (e2 :: r2) rnd.tail
            (attemptCf t env cf)).postCalls = (env :: e2 :: r2).length
        rw [hposts, hrec.2.2.1]
        simp [Nat.add_comm]
      · intro e he
        have he2 : e = CycleError.heartbeatFailed d ∨
            e ∈ (loopAux t j (e2 :: r2) rnd.tail (attemptCf t env cf)).errors := by
          simpa using he
        rcases he2 with he2 | he2
        · exact ⟨d, he2⟩
        · exact hrec.2.2.2 e he2

theorem checkServer_fields (cfg : Config) (envs : List AttemptEnv)
    (rnd : List ℚ) (cf0 : Nat) :
    (checkServerWithRetry cfg envs rnd cf0).success =
      (loopAux (selectTransport cfg.transport) cfg.jitterMs envs rnd cf0).success ∧
    (checkServerWithRetry cfg envs rnd cf0).attemptsRun =
      (loopAux (selectTransport cfg.transport) cfg.jitterMs envs rnd cf0).attemptsRun ∧
    (checkServerWithRetry cfg envs rnd cf0).postCalls =
      (loopAux (selectTransport cfg.transport) cfg.jitterMs envs rnd cf0).postCalls ∧
    (checkServerWithRetry cfg envs rnd cf0).delays =
      (loopAux (selectTransport cfg.transport) cfg.jitterMs envs rnd cf0).delays ∧
    (checkServerWithRetry cfg envs rnd cf0).errors =
      (loopAux (selectTransport cfg.transport) cfg.jitterMs envs rnd cf0).errors ∧
    (checkServerWithRetry cfg envs rnd cf0).cf =
      (if (loopAux (selectTransport cfg.transport) cfg.jitterMs envs rnd cf0).success
        then (loopAux (selectTransport cfg.transport) cfg.jitterMs envs rnd cf0).cf
        else (loopAux (selectTransport cfg.transport) cfg.jitterMs envs rnd cf0).cf + 1) := by
  unfold checkServerWithRetry
  split <;> simp_all

end LoopLemmas

section WsLemmas

theorem wsStep_of_settled (now : Int) {s : WsState}
    (h : s.settled.isSome = true) (e : WsFrame) : wsStep now s e = s := by
  unfold wsStep
  rw [h]
  simp

theorem wsStep_close_noauth (now : Int) {s : WsState}
    (hauth : s.authSuccess = false) (hset : s.settled = none) :
    wsStep now s WsFrame.close =
      { s with settled := some (Except.error WsError.closedBeforeAuth) } := by
  unfold wsStep
  rw [hset, hauth]
  simp

theorem wsStep_resolve (now cid : Int) {s : WsState}
    (hauth : s.authSuccess = true) (hcid : s.commandId = some cid)
    (hset : s.settled = none) (m : Option String) :
    wsStep now s (WsFrame.msg cid m) =
      { s with settled := some (Except.ok true),
               logPreview := some (responsePreview m) } := by
  unfold wsStep
  rw [hset, hauth, hcid]
  simp

theorem ws_fold_settled (now : Int) :
    ∀ (evs : List WsFrame) (s : WsState), s.settled.isSome = true →
      List.foldl (wsStep now) s evs = s := by
  intro evs
  induction evs with
  | nil => intro s _; rfl
  | cons e rest ih =>
    intro s h
    rw [List.foldl_cons, wsStep_of_settled now h, ih s h]

theorem ws_noauth_invariant (now : Int) :
    ∀ (evs : List WsFrame) (s : WsState),
      (∀ e ∈ evs, isAuthSignal e = false) →
      s.authSuccess = false →
      (s.settled = none ∨ ∃ err, s.settled = some (Except.error err)) →
      (List.foldl (wsStep now) s evs).authSuccess = false ∧
      ((List.foldl (wsStep now) s evs).settled = none ∨
        ∃ err, (List.foldl (wsStep now) s evs).settled =
          some (Except.error err)) := by
  intro evs
  induction evs with
  | nil => intro s _ hauth hset; exact ⟨hauth, hset⟩
  | cons e rest ih =>
    intro s hno hauth hset
    rw [List.foldl_cons]
    have hrest : ∀ e2 ∈ rest, isAuthSignal e2 = false :=
      fun e2 hmem => hno e2 (List.mem_cons_of_mem e hmem)
    rcases hset with hset | ⟨err, hset⟩
    · have hstep : (wsStep now s e).authSuccess = false ∧
          ((wsStep now s e).settled = none ∨
            ∃ err, (wsStep now s e).settled = some (Except.error err)) := by
        have hnone : s.settled.isSome = false := by rw [hset]; rfl
        cases e with
        | msg ident message =>
          have hid : (ident == -1) = false :=
            hno (WsFrame.msg ident message) (List.mem_cons_self _ _)
          have hid2 : ¬ident = -1 := by simpa using hid
          unfold wsStep
          rw [hnone]
          simp only [Bool.false_eq_true, if_false]
          rw [if_neg (by intro hc; exact hid2 hc.2),
            if_neg (by intro hc; rw [hauth] at hc; exact absurd hc.1 (by simp))]
          exact ⟨hauth, Or.inl hset⟩
        | malformed d =>
          unfold wsStep
          rw [hnone]
          simp only [Bool.false_eq_true, if_false]
          exact ⟨hauth, Or.inr ⟨WsError.parseFailure d, rfl⟩⟩
        | close =>
          unfold wsStep
          rw [hnone]
          simp only [Bool.false_eq_true, if_false]
          rw [if_neg (by rw [hauth]; simp)]
          exact ⟨hauth, Or.inr ⟨WsError.closedBeforeAuth, rfl⟩⟩
      exact ih (wsStep now s e) hrest hstep.1 hstep.2
    · have hsome : s.settled.isSome = true := by rw [hset]; rfl
      rw [wsStep_of_settled now hsome, ws_fold_settled now rest s hsome]
      exact ⟨hauth, Or.inr ⟨err, hset⟩⟩

theorem ws_preclose_invariant (now : Int) :
    ∀ (evs : List WsFrame) (s : WsState),
      (∀ e ∈ evs, isAuthSignal e = false ∧ isMalformed e = false) →
      s.authSuccess = false →
      (s.settled = none ∨
        s.settled = some (Except.error WsError.closedBeforeAuth)) →
      (List.foldl (wsStep now) s evs).authSuccess = false ∧
      ((List.foldl (wsStep now) s evs).settled = none ∨
        (List.foldl (wsStep now) s evs).settled =
          some (Except.error WsError.closedBeforeAuth)) := by
  intro evs
  induction evs with
  | nil => intro s _ hauth hset; exact ⟨hauth, hset⟩
  | cons e rest ih =>
    intro s hno hauth hset
    rw [List.foldl_cons]
    have hrest : ∀ e2 ∈ rest, isAuthSignal e2 = false ∧ isMalformed e2 = false :=
      fun e2 hmem => hno e2 (List.mem_cons_of_mem e hmem)
    have hhead := hno e (List.mem_cons_self e rest)
    rcases hset with hset | hset
    · have hnone : s.settled.isSome = false := by rw [hset]; rfl
      have hstep : (wsStep now s e).authSuccess = false ∧
          ((wsStep now s e).settled = none ∨
            (wsStep now s e).settled =
              some (Except.error WsError.closedBeforeAuth)) := by
        cases e with
        | msg ident message =>
          have hid2 : ¬ident = -1 := by
            have := hhead.1
            simpa [isAuthSignal] using this
          unfold wsStep
          rw [hnone]
          simp only [Bool.false_eq_true, if_false]
          rw [if_neg (by intro hc; exact hid2 hc.2),
            if_neg (by intro hc; rw [hauth] at hc; exact absurd hc.1 (by simp))]
          exact ⟨hauth, Or.inl hset⟩
        | malformed d => exact absurd hhead.2 (by simp [isMalformed])
        | close =>
          unfold wsStep
          rw [hnone]
          simp only [Bool.false_eq_true, if_false]
          rw [if_neg (by rw [hauth]; simp)]
          exact ⟨hauth, Or.inr rfl⟩
      exact ih (wsStep now s e) hrest hstep.1 hstep.2
    · have hsome : s.settled.isSome = true := by rw [hset]; rfl
      rw [wsStep_of_settled now hsome, ws_fold_settled now rest s hsome]
      exact ⟨hauth, Or.inr hset⟩

theorem ws_pre_unchanged (now : Int) :
    ∀ (evs : List WsFrame) (s : WsState),
      (∀ e ∈ evs, isAuthSignal e = false ∧ isMalformed e = false ∧
        isCloseFrame e = false) →
      s.authSuccess = false → s.settled = none →
      List.foldl (wsStep now) s evs = s := by
  intro evs
  induction evs with
  | nil => intro s _ _ _; rfl
  | cons e rest ih =>
    intro s hno hauth hset
    have hhead := hno e (List.mem_cons_self e rest)
    have hnone : s.settled.isSome = false := by rw [hset]; rfl
    have hstep : wsStep now s e = s := by
      cases e with
      | msg ident message =>
        have hid2 : ¬ident = -1 := by
          have := hhead.1
          simpa [isAuthSignal] using this
        unfold wsStep
        rw [hnone]
        simp only [Bool.false_eq_true, if_false]
        rw [if_neg (by intro hc; exact hid2 hc.2),
          if_neg (by intro hc; rw [hauth] at hc; exact absurd hc.1 (by simp))]
      | malformed d => exact absurd hhead.2.1 (by simp [isMalformed])
      | close => exact absurd hhead.2.2 (by simp [isCloseFrame])
    rw [List.foldl_cons, hstep]
    exact ih s (fun e2 hmem => hno e2 (List.mem_cons_of_mem e hmem)) hauth hset

theorem ws_mid_unchanged (now : Int) (cid : Int) :
    ∀ (evs : List WsFrame) (s : WsState),
      (∀ e ∈ evs, frameMatches cid e = false ∧ isMalformed e = false) →
      s.authSuccess = true → s.commandId = some cid → s.settled = none →
      List.foldl (wsStep now) s evs = s := by
  intro evs
  induction evs with
  | nil => intro s _ _ _ _; rfl
  | cons e rest ih =>
    intro s hno hauth hcid hset
    have hhead := hno e (List.mem_cons_self e rest)
    have hnone : s.settled.isSome = false := by rw [hset]; rfl
    have hstep : wsStep now s e = s := by
      cases e with
      | msg ident message =>
        have hid2 : ¬ident = cid := by
          have := hhead.1
          simpa [frameMatches] using this
        unfold wsStep
        rw [hnone]
        simp only [Bool.false_eq_true, if_false]
        rw [if_neg (by intro hc; rw [hauth] at hc; exact absurd hc.1 (by simp)),
          if_neg (by
            intro hc
            rw [hcid] at hc
            have : cid = ident := by simpa using hc.2
            exact hid2 this.symm)]
      | malformed d => exact absurd hhead.2 (by simp [isMalformed])
      | close =>
        unfold wsStep
        rw [hnone]
        simp only [Bool.false_eq_true, if_false]
        rw [if_pos hauth]
    rw [List.foldl_cons, hstep]
    exact ih s (fun e2 hmem => hno e2 (List.mem_cons_of_mem e hmem))
      hauth hcid hset

end WsLemmas

set_option maxRecDepth 10000

/-- C1 counterexample: with RCON_TRANSPORT set to udp the per-attempt
retry loop is entered anyway, all three configured attempts run, the
unknown-transport error is caught and recorded as a runtime attempt
failure on every attempt, and the failed cycle increments
consecutiveFailures; so an unrecognized transport is not treated as a
fatal startup configuration error that skips the retry loop. -/
theorem c1_counterexample :
    (checkServerWithRetry { transport := "udp", jitterMs := 300, threshold := 2 }
      [{ rcon := Except.ok (), post := Except.ok () },
       { rcon := Except.ok (), post := Except.ok () },
       { rcon := Except.ok (), post := Except.ok () }] [] 0).attemptsRun = 3 ∧
    (checkServerWithRetry { transport := "udp", jitterMs := 300, threshold := 2 }
      [{ rcon := Except.ok (), post := Except.ok () },
       { rcon := Except.ok (), post := Except.ok () },
       { rcon := Except.ok (), post := Except.ok () }] [] 0).errors =
      [CycleError.unknownTransport "udp", CycleError.unknownTransport "udp",
       CycleError.unknownTransport "udp"] ∧
    (checkServerWithRetry { transport := "udp", jitterMs := 300, threshold := 2 }
      [{ rcon := Except.ok (), post := Except.ok () },
       { rcon := Except.ok (), post := Except.ok () },
       { rcon := Except.ok (), post := Except.ok () }] [] 0).success = false ∧
    (checkServerWithRetry { transport := "udp", jitterMs := 300, threshold := 2 }
      [{ rcon := Except.ok (), post := Except.ok () },
       { rcon := Except.ok (), post := Except.ok () },
       { rcon := Except.ok (), post := Except.ok () }] [] 0).cf = 0 + 1 := by
  decide

/-- C1 (amended): an unrecognized RCON_TRANSPORT value is not validated
at startup; the unknown-transport Error is thrown inside every attempt
of the retry loop, caught as a runtime attempt failure, recorded once
per configured attempt, and the cycle fails and increments
consecutiveFailures by one. -/
theorem c1_unknownTransport_retried_amended (cfg : Config) (raw : String)
    (ht : selectTransport cfg.transport = Transport.unknown raw)
    (envs : List AttemptEnv) (rnd : List ℚ) (cf0 : Nat) :
    (checkServerWithRetry cfg envs rnd cf0).success = false ∧
    (checkServerWithRetry cfg envs rnd cf0).attemptsRun = envs.length ∧
    (checkServerWithRetry cfg envs rnd cf0).cf = cf0 + 1 ∧
    (checkServerWithRetry cfg envs rnd cf0).errors =
      List.replicate envs.length (CycleError.unknownTransport raw) := by
  have hfields := checkServer_fields cfg envs rnd cf0
  rw [ht] at hfields
  have hloop := loop_unknown_fields raw cfg.jitterMs envs rnd cf0
  refine ⟨?_, ?_, ?_, ?_⟩
  · rw [hfields.1, hloop.1]
  · rw [hfields.2.1, hloop.2.2.1]
  · rw [hfields.2.2.2.2.2]
    simp [hloop.1, hloop.2.1]
  · rw [hfields.2.2.2.2.1, hloop.2.2.2.2]

/-- C1 witness: the amended theorem applied at a concrete unknown
transport and one attempt environment. -/
theorem c1_unknownTransport_retried_amended_witness :
    (checkServerWithRetry { transport := "tcp", jitterMs := 250, threshold := 2 }
      [{ rcon := Except.error "refused", post := Except.ok () }] [] 4).success
        = false ∧
    (checkServerWithRetry { transport := "tcp", jitterMs := 250, threshold := 2 }
      [{ rcon := Except.error "refused", post := Except.ok () }] [] 4).attemptsRun
        = 1 ∧
    (checkServerWithRetry { transport := "tcp", jitterMs := 250, threshold := 2 }
      [{ rcon := Except.error "refused", post := Except.ok () }] [] 4).cf
        = 4 + 1 ∧
    (checkServerWithRetry { transport := "tcp", jitterMs := 250, threshold := 2 }
      [{ rcon := Except.error "refused", post := Except.ok () }] [] 4).errors
        = [CycleError.unknownTransport "tcp"] :=
  c1_unknownTransport_retried_amended
    { transport := "tcp", jitterMs := 250, threshold := 2 } "tcp" (by decide)
    [{ rcon := Except.error "refused", post := Except.ok () }] [] 4

/-- C2 counterexample: when the RCON exchange of an attempt succeeds but
the heartbeat POST throws, the failure is caught by the same per-attempt
catch as a liveness failure: in the first run both attempts have a
successful exchange and a failing POST, the two failures are recorded
and retried as ordinary attempt failures and the cycle ends with
consecutiveFailures incremented to 1; in the second run the cycle ends
successfully yet the heartbeat endpoint was POSTed twice, not at most
once. -/
theorem c2_counterexample :
    ((checkServerWithRetry { transport := "web", jitterMs := 300, threshold := 2 }
      [{ rcon := Except.ok (), post := Except.error "http 500" },
       { rcon := Except.ok (), post := Except.error "http 500" }] [] 0).success
        = false ∧
     (checkServerWithRetry { transport := "web", jitterMs := 300, threshold := 2 }
      [{ rcon := Except.ok (), post := Except.error "http 500" },
       { rcon := Except.ok (), post := Except.error "http 500" }] [] 0).cf = 1 ∧
     (checkServerWithRetry { transport := "web", jitterMs := 300, threshold := 2 }
      [{ rcon := Except.ok (), post := Except.error "http 500" },
       { rcon := Except.ok (), post := Except.error "http 500" }] [] 0).errors =
       [CycleError.heartbeatFailed "http 500",
        CycleError.heartbeatFailed "http 500"]) ∧
    ((checkServerWithRetry { transport := "web", jitterMs := 300, threshold := 2 }
      [{ rcon := Except.ok (), post := Except.error "http 500" },
       { rcon := Except.ok (), post := Except.ok () }] [] 0).success = true ∧
     (checkServerWithRetry { transport := "web", jitterMs := 300, threshold := 2 }
      [{ rcon := Except.ok (), post := Except.error "http 500" },
       { rcon := Except.ok (), post := Except.ok () }] [] 0).postCalls = 2) := by
  decide

/-- C2 (amended): a heartbeat POST failure after a successful RCON
exchange is caught as an ordinary attempt failure and retried within the
cycle; a cycle whose every attempt has a successful exchange and a
failing POST fails as a whole and leaves consecutiveFailures at exactly
1 (the counter was reset before each POST), every recorded error of the
cycle is a heartbeat-delivery failure, and the heartbeat endpoint is
POSTed once per attempt, so several times in one cycle. -/
theorem c2_heartbeat_failure_amended (cfg : Config)
    (hT : (selectTransport cfg.transport).isKnown = true)
    (envs : List AttemptEnv) (rnd : List ℚ) (cf0 : Nat)
    (hne : envs ≠ [])
    (hall : ∀ env ∈ envs, env.rcon.isOk = true ∧ env.post.isOk = false) :
    (checkServerWithRetry cfg envs rnd cf0).success = false ∧
    (checkServerWithRetry cfg envs rnd cf0).cf = 1 ∧
    (checkServerWithRetry cfg envs rnd cf0).postCalls = envs.length ∧
    (∀ e ∈ (checkServerWithRetry cfg envs rnd cf0).errors,
      ∃ d, e = CycleError.heartbeatFailed d) := by
  have hfields := checkServer_fields cfg envs rnd cf0
  have hloop := loop_heartbeat_fail (selectTransport cfg.transport)
    cfg.jitterMs hT envs rnd cf0 hne hall
  refine ⟨?_, ?_, ?_, ?_⟩
  · rw [hfields.1, hloop.1]
  · rw [hfields.2.2.2.2.2]
    simp [hloop.1, hloop.2.1]
  · rw [hfields.2.2.1, hloop.2.2.1]
  · rw [hfields.2.2.2.2.1]
    exact hloop.2.2.2

/-- C2 witness: the amended theorem applied to a concrete two-attempt
cycle whose POSTs both fail, starting from counter 6. -/
theorem c2_heartbeat_failure_amended_witness :
    (checkServerWithRetry { transport := "web", jitterMs := 100, threshold := 3 }
      [{ rcon := Except.ok (), post := Except.error "dns" },
       { rcon := Except.ok (), post := Except.error "dns" }] [] 6).success
        = false ∧
    (checkServerWithRetry { transport := "web", jitterMs := 100, threshold := 3 }
      [{ rcon := Except.ok (), post := Except.error "dns" },
       { rcon := Except.ok (), post := Except.error "dns" }] [] 6).cf = 1 ∧
    (checkServerWithRetry { transport := "web", jitterMs := 100, threshold := 3 }
      [{ rcon := Except.ok (), post := Except.error "dns" },
       { rcon := Except.ok (), post := Except.error "dns" }] [] 6).postCalls
        = 2 ∧
    (∀ e ∈ (checkServerWithRetry
        { transport := "web", jitterMs := 100, threshold := 3 }
        [{ rcon := Except.ok (), post := Except.error "dns" },
         { rcon := Except.ok (), post := Except.error "dns" }] [] 6).errors,
      ∃ d, e = CycleError.heartbeatFailed d) :=
  c2_heartbeat_failure_amended
    { transport := "web", jitterMs := 100, threshold := 3 } (by decide)
    [{ rcon := Except.ok (), post := Except.error "dns" },
     { rcon := Except.ok (), post := Except.error "dns" }] [] 6
    (by simp) (by decide)

/-- C3 counterexample: a whole-cycle failure does not always increment
consecutiveFailures by exactly 1. Starting from counter 5, a one-attempt
cycle whose RCON exchange succeeds but whose heartbeat POST throws fails
as a whole, yet the counter ends at 1 rather than 5 + 1, because line
149 reset it to 0 in the middle of the failing cycle. -/
theorem c3_counterexample :
    (checkServerWithRetry { transport := "web", jitterMs := 300, threshold := 2 }
      [{ rcon := Except.ok (), post := Except.error "post failed" }] [] 5).success
        = false ∧
    (checkServerWithRetry { transport := "web", jitterMs := 300, threshold := 2 }
      [{ rcon := Except.ok (), post := Except.error "post failed" }] [] 5).cf
        = 1 ∧
    (1 : Nat) ≠ 5 + 1 := by
  decide

/-- C3 (amended): consecutiveFailures is reset to 0 by any whole-cycle
success, and a failing cycle increments it by exactly 1 provided no
attempt of that cycle had a successful RCON exchange (a mid-cycle
exchange success resets the counter even if the cycle then fails); in
particular after N failing cycles in a row in which no RCON exchange
succeeded, the counter has grown from cf0 to cf0 + N. -/
theorem c3_consecutiveFailures_amended (cfg : Config) :
    (∀ envs rnd cf0, (checkServerWithRetry cfg envs rnd cf0).success = true →
      (checkServerWithRetry cfg envs rnd cf0).cf = 0) ∧
    (∀ envs rnd cf0, (∀ env ∈ envs, env.rcon.isOk = false) →
      (checkServerWithRetry cfg envs rnd cf0).success = false ∧
      (checkServerWithRetry cfg envs rnd cf0).cf = cf0 + 1) ∧
    (∀ (cycles : List CycleInput) (cf0 : Nat),
      (∀ c ∈ cycles, ∀ env ∈ CycleInput.envs c, env.rcon.isOk = false) →
      (runHistory cfg cycles cf0).1 = cf0 + cycles.length) := by
  have hb : ∀ envs rnd cf0, (∀ env ∈ envs, env.rcon.isOk = false) →
      (checkServerWithRetry cfg envs rnd cf0).success = false ∧
      (checkServerWithRetry cfg envs rnd cf0).cf = cf0 + 1 := by
    intro envs rnd cf0 hall
    have hfields := checkServer_fields cfg envs rnd cf0
    have hloop := loop_all_rcon_fail (selectTransport cfg.transport)
      cfg.jitterMs envs rnd cf0 hall
    refine ⟨by rw [hfields.1, hloop.1], ?_⟩
    rw [hfields.2.2.2.2.2]
    simp [hloop.1, hloop.2]
  refine ⟨?_, hb, ?_⟩
  · intro envs rnd cf0 hsucc
    have hfields := checkServer_fields cfg envs rnd cf0
    have hls : (loopAux (selectTransport cfg.transport) cfg.jitterMs envs
        rnd cf0).success = true := by
      rw [← hfields.1]; exact hsucc
    rw [hfields.2.2.2.2.2]
    simp [hls, loop_cf_of_success (selectTransport cfg.transport)
      cfg.jitterMs envs rnd cf0 hls]
  · intro cycles
    induction cycles with
    | nil => intro cf0 _; simp [runHistory]
    | cons c rest ih =>
      intro cf0 hall
      have hc := hb c.envs c.rnd cf0 (hall c (List.mem_cons_self c rest))
      show (runHistory cfg rest
        (checkServerWithRetry cfg c.envs c.rnd cf0).cf).1 =
        cf0 + (c :: rest).length
      rw [hc.2, ih (cf0 + 1)
        (fun c2 hmem => hall c2 (List.mem_cons_of_mem c hmem))]
      simp [Nat.add_comm, Nat.add_assoc, Nat.add_left_comm]

/-- C3 witness: the amended theorem applied to two consecutive cycles in
which every RCON exchange fails, starting from counter 0. -/
theorem c3_consecutiveFailures_amended_witness :
    (runHistory { transport := "web", jitterMs := 300, threshold := 2 }
      [{ envs := [{ rcon := Except.error "timeout", post := Except.ok () }],
         rnd := [] },
       { envs := [{ rcon := Except.error "timeout", post := Except.ok () }],
         rnd := [] }] 0).1 = 0 + 2 :=
  (c3_consecutiveFailures_amended
    { transport := "web", jitterMs := 300, threshold := 2 }).2.2
    [{ envs := [{ rcon := Except.error "timeout", post := Except.ok () }],
       rnd := [] },
     { envs := [{ rcon := Except.error "timeout", post := Except.ok () }],
       rnd := [] }] 0 (by decide)

/-- C4: after any failed cycle the incremented counter is positive, and
the classification computed at lines 173-177 is Down exactly when
consecutiveFailures has reached the threshold and Warn exactly when the
counter is strictly between 0 and the threshold. -/
theorem c4_classification (cfg : Config) (envs : List AttemptEnv)
    (rnd : List ℚ) (cf0 : Nat)
    (hfail : (checkServerWithRetry cfg envs rnd cf0).success = false) :
    0 < (checkServerWithRetry cfg envs rnd cf0).cf ∧
    (classifyAfterFailure (checkServerWithRetry cfg envs rnd cf0).cf
        cfg.threshold = Classification.Down ↔
      cfg.threshold ≤ (checkServerWithRetry cfg envs rnd cf0).cf) ∧
    (classifyAfterFailure (checkServerWithRetry cfg envs rnd cf0).cf
        cfg.threshold = Classification.Warn ↔
      (0 < (checkServerWithRetry cfg envs rnd cf0).cf ∧
        (checkServerWithRetry cfg envs rnd cf0).cf < cfg.threshold)) := by
  have hfields := checkServer_fields cfg envs rnd cf0
  have hls : (loopAux (selectTransport cfg.transport) cfg.jitterMs envs
      rnd cf0).success = false := by
    rw [← hfields.1]; exact hfail
  have hcf : (checkServerWithRetry cfg envs rnd cf0).cf =
      (loopAux (selectTransport cfg.transport) cfg.jitterMs envs rnd cf0).cf
        + 1 := by
    rw [hfields.2.2.2.2.2]
    simp [hls]
  have hpos : 0 < (checkServerWithRetry cfg envs rnd cf0).cf := by
    rw [hcf]; omega
  refine ⟨hpos, ?_, ?_⟩
  · by_cases hth : cfg.threshold ≤ (checkServerWithRetry cfg envs rnd cf0).cf
    · unfold classifyAfterFailure
      rw [if_pos hth]
      simp [hth]
    · unfold classifyAfterFailure
      rw [if_neg hth]
      constructor
      · intro hEq; exact absurd hEq (by simp)
      · intro hle; exact absurd hle hth
  · by_cases hth : cfg.threshold ≤ (checkServerWithRetry cfg envs rnd cf0).cf
    · unfold classifyAfterFailure
      rw [if_pos hth]
      constructor
      · intro hEq; exact absurd hEq (by simp)
      · intro hc; exact absurd hc.2 (by omega)
    · unfold classifyAfterFailure
      rw [if_neg hth]
      constructor
      · intro _; exact ⟨hpos, by omega⟩
      · intro _; rfl

/-- C4 witness: the classification theorem applied to one concrete
failed cycle against threshold 2, where the incremented counter reaches
the threshold. -/
theorem c4_classification_witness :
    0 < (checkServerWithRetry { transport := "web", jitterMs := 300, threshold := 2 }
      [{ rcon := Except.error "timeout", post := Except.ok () }] [] 1).cf ∧
    (classifyAfterFailure (checkServerWithRetry
        { transport := "web", jitterMs := 300, threshold := 2 }
        [{ rcon := Except.error "timeout", post := Except.ok () }] [] 1).cf
        2 = Classification.Down ↔
      2 ≤ (checkServerWithRetry
        { transport := "web", jitterMs := 300, threshold := 2 }
        [{ rcon := Except.error "timeout", post := Except.ok () }] [] 1).cf) ∧
    (classifyAfterFailure (checkServerWithRetry
        { transport := "web", jitterMs := 300, threshold := 2 }
        [{ rcon := Except.error "timeout", post := Except.ok () }] [] 1).cf
        2 = Classification.Warn ↔
      (0 < (checkServerWithRetry
        { transport := "web", jitterMs := 300, threshold := 2 }
        [{ rcon := Except.error "timeout", post := Except.ok () }] [] 1).cf ∧
       (checkServerWithRetry
        { transport := "web", jitterMs := 300, threshold := 2 }
        [{ rcon := Except.error "timeout", post := Except.ok () }] [] 1).cf
         < 2)) :=
  c4_classification { transport := "web", jitterMs := 300, threshold := 2 }
    [{ rcon := Except.error "timeout", post := Except.ok () }] [] 1 (by decide)

/-- C5: the cycle succeeds exactly when some attempt fully succeeds, and
when the first fully successful attempt has index i (counting from 0)
exactly i + 1 attempts are executed, so the remaining attempts are not
consumed; equivalently the cycle fails only when every attempt fails. -/
theorem c5_cycle_short_circuit (cfg : Config) (envs : List AttemptEnv)
    (rnd : List ℚ) (cf0 : Nat) :
    ((checkServerWithRetry cfg envs rnd cf0).success = true ↔
      envs.any (attemptSucceeds (selectTransport cfg.transport)) = true) ∧
    (∀ i (hi : i < envs.length),
      attemptSucceeds (selectTransport cfg.transport) (envs.get ⟨i, hi⟩)
        = true →
      (∀ k (hk : k < i),
        attemptSucceeds (selectTransport cfg.transport)
          (envs.get ⟨k, by omega⟩) = false) →
      (checkServerWithRetry cfg envs rnd cf0).attemptsRun = i + 1) := by
  have hfields := checkServer_fields cfg envs rnd cf0
  constructor
  · rw [hfields.1,
      loop_success_any (selectTransport cfg.transport) cfg.jitterMs envs rnd cf0]
  · intro i hi hsucc hbefore
    rw [hfields.2.1]
    exact loop_attemptsRun_first_success (selectTransport cfg.transport)
      cfg.jitterMs envs rnd cf0 i hi hsucc hbefore

/-- C5 witness: in a three-attempt cycle whose first attempt fails and
whose second fully succeeds, exactly two attempts run. -/
theorem c5_cycle_short_circuit_witness :
    (checkServerWithRetry { transport := "web", jitterMs := 300, threshold := 2 }
      [{ rcon := Except.error "timeout", post := Except.ok () },
       { rcon := Except.ok (), post := Except.ok () },
       { rcon := Except.ok (), post := Except.ok () }] [] 0).attemptsRun
      = 1 + 1 :=
  (c5_cycle_short_circuit { transport := "web", jitterMs := 300, threshold := 2 }
    [{ rcon := Except.error "timeout", post := Except.ok () },
     { rcon := Except.ok (), post := Except.ok () },
     { rcon := Except.ok (), post := Except.ok () }] [] 0).2
    1 (by decide) (by decide) (by decide)

/-- C6: with a positive jitter maximum and Math.random() samples in the
unit interval, every jitter delay waited during a cycle lies in the
half-open interval from 0 inclusive to the maximum exclusive, and in a
nonempty cycle the number of delays is exactly one less than the number
of executed attempts, so no delay follows the final executed attempt.
Randomness is modelled by the explicit sample stream, each non-final
failed attempt consuming the next sample independently. -/
theorem c6_jitter_bounds (cfg : Config) (envs : List AttemptEnv)
    (rnd : List ℚ) (cf0 : Nat)
    (hj : 0 < cfg.jitterMs) (hr : ∀ r ∈ rnd, 0 ≤ r ∧ r < 1) :
    (∀ d ∈ (checkServerWithRetry cfg envs rnd cf0).delays,
      0 ≤ d ∧ d < cfg.jitterMs) ∧
    (envs ≠ [] →
      (checkServerWithRetry cfg envs rnd cf0).delays.length + 1 =
        (checkServerWithRetry cfg envs rnd cf0).attemptsRun) := by
  have hfields := checkServer_fields cfg envs rnd cf0
  constructor
  · rw [hfields.2.2.2.1]
    exact loop_delays_mem (selectTransport cfg.transport) cfg.jitterMs hj
      envs rnd cf0 hr
  · intro hne
    rw [hfields.2.2.2.1, hfields.2.1]
    exact loop_delays_len (selectTransport cfg.transport) cfg.jitterMs
      envs rnd cf0 hne

/-- C6 witness: a two-attempt failing cycle with jitter maximum 300 and
one random sample one half; the single delay waited is 150, inside the
interval, and one fewer delay than attempts occurred. -/
theorem c6_jitter_bounds_witness :
    (∀ d ∈ (checkServerWithRetry
        { transport := "web", jitterMs := 300, threshold := 2 }
        [{ rcon := Except.error "timeout", post := Except.ok () },
         { rcon := Except.error "timeout", post := Except.ok () }]
        [1 / 2] 0).delays,
      0 ≤ d ∧ d < (300 : ℚ)) ∧
    ([{ rcon := Except.error "timeout", post := Except.ok () },
      { rcon := Except.error "timeout",
        post := Except.ok () }] ≠ ([] : List AttemptEnv) →
      (checkServerWithRetry
        { transport := "web", jitterMs := 300, threshold := 2 }
        [{ rcon := Except.error "timeout", post := Except.ok () },
         { rcon := Except.error "timeout", post := Except.ok () }]
        [1 / 2] 0).delays.length + 1 =
      (checkServerWithRetry
        { transport := "web", jitterMs := 300, threshold := 2 }
        [{ rcon := Except.error "timeout", post := Except.ok () },
         { rcon := Except.error "timeout", post := Except.ok () }]
        [1 / 2] 0).attemptsRun) :=
  c6_jitter_bounds { transport := "web", jitterMs := 300, threshold := 2 }
    [{ rcon := Except.error "timeout", post := Except.ok () },
     { rcon := Except.error "timeout", post := Except.ok () }]
    [1 / 2] 0 (by norm_num) (by
      intro r hrr
      rw [List.mem_singleton] at hrr
      rw [hrr]
      norm_num)

/-- C7: in the WebRCON handler, as long as no message with Identifier -1
has arrived the auth flag stays down and no event can resolve the
attempt as a command response (messages before the auth signal are
ignored for command matching), and if additionally no frame was
malformed, a close event arriving before the auth signal settles the
attempt with the closed-before-auth rejection. -/
theorem c7_webrcon_preauth (now : Int) (evs : List WsFrame)
    (hno : ∀ e ∈ evs, isAuthSignal e = false) :
    ((wsRun now evs).authSuccess = false ∧
      ∀ b, (wsRun now evs).settled ≠ some (Except.ok b)) ∧
    ((∀ e ∈ evs, isMalformed e = false) →
      (wsRun now (evs ++ [WsFrame.close])).settled =
        some (Except.error WsError.closedBeforeAuth)) := by
  constructor
  · have hinv := ws_noauth_invariant now evs wsInit hno rfl (Or.inl rfl)
    refine ⟨hinv.1, ?_⟩
    intro b hb
    unfold wsRun at hb
    rcases hinv.2 with hset | ⟨err, hset⟩
    · rw [hset] at hb; exact absurd hb (by simp)
    · rw [hset] at hb
      simp at hb
  · intro hmal
    have hinv := ws_preclose_invariant now evs wsInit
      (fun e hmem => ⟨hno e hmem, hmal e hmem⟩) rfl (Or.inl rfl)
    unfold wsRun
    rw [List.foldl_append, List.foldl_cons, List.foldl_nil]
    rcases hinv.2 with hset | hset
    · rw [wsStep_close_noauth now hinv.1 hset]
    · have hsome : (List.foldl (wsStep now) wsInit evs).settled.isSome
          = true := by rw [hset]; rfl
      rw [wsStep_of_settled now hsome]
      exact hset

/-- C7 witness: two pre-auth messages with Identifiers 5 and 7 are
ignored, and the following close settles the attempt with the
closed-before-auth rejection. -/
theorem c7_webrcon_preauth_witness :
    ((wsRun 99 [WsFrame.msg 5 (some "noise"),
        WsFrame.msg 7 none]).authSuccess = false ∧
      ∀ b, (wsRun 99 [WsFrame.msg 5 (some "noise"),
        WsFrame.msg 7 none]).settled ≠ some (Except.ok b)) ∧
    ((∀ e ∈ [WsFrame.msg 5 (some "noise"), WsFrame.msg 7 none],
        isMalformed e = false) →
      (wsRun 99 ([WsFrame.msg 5 (some "noise"), WsFrame.msg 7 none]
          ++ [WsFrame.close])).settled =
        some (Except.error WsError.closedBeforeAuth)) :=
  c7_webrcon_preauth 99 [WsFrame.msg 5 (some "noise"), WsFrame.msg 7 none]
    (by decide)

/-- C9: no per-attempt failure escapes the cycle driver: the boolean
outcome of a cycle is a total function of the attempt outcomes (true
exactly when some attempt succeeds), every failing cycle records one
caught and classified error per attempt in order, and the process-level
loop produces exactly one outcome for every cycle regardless of how the
attempts failed, so no attempt error terminates it. -/
theorem c9_errors_absorbed (cfg : Config) (envs : List AttemptEnv)
    (rnd : List ℚ) (cf0 : Nat) :
    ((checkServerWithRetry cfg envs rnd cf0).success =
      envs.any (attemptSucceeds (selectTransport cfg.transport))) ∧
    ((checkServerWithRetry cfg envs rnd cf0).success = false →
      (checkServerWithRetry cfg envs rnd cf0).errors =
        envs.filterMap (attemptErrorOf (selectTransport cfg.transport)) ∧
      (checkServerWithRetry cfg envs rnd cf0).errors.length = envs.length) ∧
    (∀ (cycles : List CycleInput) (cf1 : Nat),
      ((runHistory cfg cycles cf1).2).length = cycles.length) := by
  have hfields := checkServer_fields cfg envs rnd cf0
  refine ⟨?_, ?_, ?_⟩
  · rw [hfields.1,
      loop_success_any (selectTransport cfg.transport) cfg.jitterMs envs rnd cf0]
  · intro hfail
    have hany : envs.any (attemptSucceeds (selectTransport cfg.transport))
        = false := by
      rw [← loop_success_any (selectTransport cfg.transport) cfg.jitterMs
        envs rnd cf0, ← hfields.1]
      exact hfail
    have hallfail : ∀ env ∈ envs,
        attemptSucceeds (selectTransport cfg.transport) env = false := by
      intro env hmem
      simpa using List.any_eq_false.mp hany env hmem
    have herr := loop_errors_all_fail (selectTransport cfg.transport)
      cfg.jitterMs envs rnd cf0 hallfail
    rw [hfields.2.2.2.2.1]
    exact herr
  · intro cycles
    induction cycles with
    | nil => intro cf1; rfl
    | cons c rest ih =>
      intro cf1
      show ((checkServerWithRetry cfg c.envs c.rnd cf1) ::
        (runHistory cfg rest
          (checkServerWithRetry cfg c.envs c.rnd cf1).cf).2).length =
        (c :: rest).length
      rw [List.length_cons, List.length_cons,
        ih (checkServerWithRetry cfg c.envs c.rnd cf1).cf]

/-- C9 witness: a concrete cycle mixing a connection failure and a
heartbeat failure records both errors in order and fails. -/
theorem c9_errors_absorbed_witness :
    (checkServerWithRetry { transport := "classic", jitterMs := 300, threshold := 2 }
      [{ rcon := Except.error "econnrefused", post := Except.ok () },
       { rcon := Except.ok (), post := Except.error "http 503" }] [] 0).errors =
      [{ rcon := Except.error "econnrefused", post := Except.ok () },
       { rcon := Except.ok (), post := Except.error "http 503" }].filterMap
        (attemptErrorOf (selectTransport "classic")) ∧
    (checkServerWithRetry { transport := "classic", jitterMs := 300, threshold := 2 }
      [{ rcon := Except.error "econnrefused", post := Except.ok () },
       { rcon := Except.ok (), post := Except.error "http 503" }] [] 0).errors.length
      = 2 :=
  (c9_errors_absorbed
    { transport := "classic", jitterMs := 300, threshold := 2 }
    [{ rcon := Except.error "econnrefused", post := Except.ok () },
     { rcon := Except.ok (), post := Except.error "http 503" }] [] 0).2.1
    (by decide)

/-- C8 counterexample: the attempt promise is resolved with the boolean
true, not with the textual answer of the command. Two WebRCON runs that
differ only in the Message field of the command response settle with
exactly the same value, so the value returned by the command execution
is not the Message field (the text reaches only the logged preview);
the claim that executeCommand returns the string hostname X is false on
the code, which resolves with true and merely logs the text. -/
theorem c8_counterexample :
    (wsRun 170 [WsFrame.msg (-1) none,
      WsFrame.msg 170 (some "hostname: X")]).settled =
        some (Except.ok true) ∧
    (wsRun 170 [WsFrame.msg (-1) none,
      WsFrame.msg 170 (some "hostname: X")]).settled =
      (wsRun 170 [WsFrame.msg (-1) none,
        WsFrame.msg 170 (some "hostname: Y")]).settled ∧
    (wsRun 170 [WsFrame.msg (-1) none,
      WsFrame.msg 170 (some "hostname: X")]).logPreview =
        some "hostname: X" :=
  ⟨rfl, rfl, rfl⟩

/-- C8 (amended): after the Identifier -1 auth signal the command is
sent with the chosen id, and the attempt is settled by the first
subsequently received message whose Identifier equals that id; the
settlement value is the boolean true, while the Message field of that
message is recorded only in the logged response preview (truncated to
100 characters, with a fallback marker when the field is absent or
empty). -/
theorem c8_first_match_resolves_amended (now : Int)
    (pre mid after : List WsFrame) (am m : Option String)
    (hpre : ∀ e ∈ pre, isAuthSignal e = false ∧ isMalformed e = false ∧
      isCloseFrame e = false)
    (hmid : ∀ e ∈ mid, frameMatches now e = false ∧ isMalformed e = false) :
    (wsRun now (pre ++ [WsFrame.msg (-1) am] ++ mid ++
      [WsFrame.msg now m] ++ after)).settled = some (Except.ok true) ∧
    (wsRun now (pre ++ [WsFrame.msg (-1) am] ++ mid ++
      [WsFrame.msg now m] ++ after)).logPreview =
        some (responsePreview m) := by
  have hs0 : List.foldl (wsStep now) wsInit pre = wsInit :=
    ws_pre_unchanged now pre wsInit hpre rfl rfl
  have hs1 : wsStep now wsInit (WsFrame.msg (-1) am) =
      { authSuccess := true, commandId := some now, settled := none,
        logPreview := none } := rfl
  have hs2 : List.foldl (wsStep now)
      { authSuccess := true, commandId := some now, settled := none,
        logPreview := none } mid =
      ({ authSuccess := true, commandId := some now, settled := none,
         logPreview := none } : WsState) :=
    ws_mid_unchanged now now mid
      { authSuccess := true, commandId := some now, settled := none,
        logPreview := none } hmid rfl rfl rfl
  have hs3 := wsStep_resolve now now
    (s := { authSuccess := true, commandId := some now, settled := none,
            logPreview := none }) rfl rfl rfl m
  constructor <;>
  · unfold wsRun
    rw [List.foldl_append, List.foldl_append, List.foldl_append,
      List.foldl_append, List.foldl_cons, List.foldl_nil, List.foldl_cons,
      List.foldl_nil, hs0, hs1, hs2, hs3,
      ws_fold_settled now after
        { authSuccess := true, commandId := some now,
          settled := some (Except.ok true),
          logPreview := some (responsePreview m) } rfl]

/-- C8 witness: the amended theorem applied to a concrete event list
with one ignored pre-auth message, one non-matching message and one
ignored close between auth and response, and a malformed frame after
settlement; the attempt settles with true and logs hostname X. -/
theorem c8_first_match_resolves_amended_witness :
    (wsRun 170 ([WsFrame.msg 3 (some "srv")] ++ [WsFrame.msg (-1) none] ++
      [WsFrame.msg 9 none, WsFrame.close] ++
      [WsFrame.msg 170 (some "hostname: X")] ++
      [WsFrame.malformed "junk"])).settled = some (Except.ok true) ∧
    (wsRun 170 ([WsFrame.msg 3 (some "srv")] ++ [WsFrame.msg (-1) none] ++
      [WsFrame.msg 9 none, WsFrame.close] ++
      [WsFrame.msg 170 (some "hostname: X")] ++
      [WsFrame.malformed "junk"])).logPreview =
        some (responsePreview (some "hostname: X")) :=
  c8_first_match_resolves_amended 170 [WsFrame.msg 3 (some "srv")]
    [WsFrame.msg 9 none, WsFrame.close] [WsFrame.malformed "junk"]
    none (some "hostname: X") (by decide) (by decide)

/-- C10: the reset of consecutiveFailures happens when the RCON exchange
succeeds, before the heartbeat POST is attempted and independently of
its outcome; consequently a cycle whose every attempt has a successful
exchange and a throwing POST fails as a whole and ends with the counter
at exactly 1 from any prior value, and its classification is Warn
whenever the threshold exceeds 1. -/
theorem c10_reset_before_heartbeat (cfg : Config)
    (hT : (selectTransport cfg.transport).isKnown = true)
    (envs : List AttemptEnv) (rnd : List ℚ) (cf0 : Nat)
    (hne : envs ≠ [])
    (hall : ∀ env ∈ envs, env.rcon.isOk = true ∧ env.post.isOk = false) :
    (∀ (env : AttemptEnv) (cf1 : Nat), env.rcon.isOk = true →
      attemptCf (selectTransport cfg.transport) env cf1 = 0) ∧
    (checkServerWithRetry cfg envs rnd cf0).success = false ∧
    (checkServerWithRetry cfg envs rnd cf0).cf = 1 ∧
    (1 < cfg.threshold →
      classifyAfterFailure (checkServerWithRetry cfg envs rnd cf0).cf
        cfg.threshold = Classification.Warn) := by
  have hfields := checkServer_fields cfg envs rnd cf0
  have hloop := loop_heartbeat_fail (selectTransport cfg.transport)
    cfg.jitterMs hT envs rnd cf0 hne hall
  have hcf : (checkServerWithRetry cfg envs rnd cf0).cf = 1 := by
    rw [hfields.2.2.2.2.2]
    simp [hloop.1, hloop.2.1]
  refine ⟨?_, ?_, hcf, ?_⟩
  · intro env cf1 hrc
    cases ht2 : selectTransport cfg.transport with
    | classic => simp [attemptCf, hrc]
    | web => simp [attemptCf, hrc]
    | unknown raw => rw [ht2] at hT; simp [Transport.isKnown] at hT
  · rw [hfields.1, hloop.1]
  · intro hth
    rw [hcf]
    unfold classifyAfterFailure
    rw [if_neg (by omega)]

/-- C10 witness: starting from counter 7 with threshold 3, a
single-attempt cycle with a successful exchange and a failing POST ends
with counter 1 and classification Warn. -/
theorem c10_reset_before_heartbeat_witness :
    (∀ (env : AttemptEnv) (cf1 : Nat), env.rcon.isOk = true →
      attemptCf (selectTransport "web") env cf1 = 0) ∧
    (checkServerWithRetry { transport := "web", jitterMs := 300, threshold := 3 }
      [{ rcon := Except.ok (), post := Except.error "http 500" }] [] 7).success
        = false ∧
    (checkServerWithRetry { transport := "web", jitterMs := 300, threshold := 3 }
      [{ rcon := Except.ok (), post := Except.error "http 500" }] [] 7).cf
        = 1 ∧
    (1 < (3 : Nat) →
      classifyAfterFailure (checkServerWithRetry
        { transport := "web", jitterMs := 300, threshold := 3 }
        [{ rcon := Except.ok (), post := Except.error "http 500" }] [] 7).cf
        3 = Classification.Warn) :=
  c10_reset_before_heartbeat
    { transport := "web", jitterMs := 300, threshold := 3 } (by decide)
    [{ rcon := Except.ok (), post := Except.error "http 500" }] [] 7
    (by simp) (by decide)

end RconMonitor
